import Mathlib

/-!
Shallow embedding of `src/scripts/html_reference.py` (the html5lib-based
reference generator) and verification of its specified properties.

The script is glue code around the external `html5lib` library: the library
calls themselves (tokenizer iteration, `HTMLParser.parse`) are modelled by
their outcome, an `Except` value carrying either the produced value or the
message of a raised exception.  Everything the script itself computes —
string escaping, tree dumping, token formatting, and the try/except result
wrappers — is embedded directly from the Python source.
-/

namespace HtmlRef

/-! ### Definitions -/

/-- Lowercase hexadecimal digit character, mirroring Python `%x` formatting
of a nibble. -/
def hexDigit (n : Nat) : Char :=
  match n with
  | 0 => '0'
  | 1 => '1'
  | 2 => '2'
  | 3 => '3'
  | 4 => '4'
  | 5 => '5'
  | 6 => '6'
  | 7 => '7'
  | 8 => '8'
  | 9 => '9'
  | 10 => 'a'
  | 11 => 'b'
  | 12 => 'c'
  | 13 => 'd'
  | 14 => 'e'
  | 15 => 'f'
  | _ => '0'

/-- Two-digit lowercase hex rendering of a code point, mirroring Python
`f-string` format `02x` for values below 256 (all uses in the script are
code points at most 0x9F). -/
def toHex2 (n : Nat) : String :=
  String.mk [hexDigit (n / 16), hexDigit (n % 16)]

/-- The body of the per-character loop of `escape_for_moonbit`
(src/scripts/html_reference.py lines 18-37), with the if-chain in the
source's order: backslash, double quote, newline, tab, carriage return,
then code < 0x20, code == 0x7F, 0x80 <= code <= 0x9F, else the character
unchanged. -/
def escapeChar (c : Char) : String :=
  if c = '\\' then "\\\\"
  else if c = '\"' then "\\\""
  else if c = '\n' then "\\n"
  else if c = '\t' then "\\t"
  else if c = '\r' then "\\r"
  else if c.toNat < 0x20 then "\\u\x7b" ++ toHex2 c.toNat ++ "\x7d"
  else if c.toNat = 0x7F then "\\u\x7b7f\x7d"
  else if 0x80 ≤ c.toNat ∧ c.toNat ≤ 0x9F then "\\u\x7b" ++ toHex2 c.toNat ++ "\x7d"
  else String.singleton c

/-- Embedding of `escape_for_moonbit` (src/scripts/html_reference.py
lines 15-38): the loop appends one escape per character and the result is
joined with the empty separator. -/
def escape_for_moonbit (s : String) : String :=
  String.join (s.data.map escapeChar)

/-- Spec-side per-character escaping, phrased the way the specification
states it: the five characters backslash, double quote, newline, tab and
carriage return get their conventional short escapes; every other
non-printable control code point (below U+0020, U+007F, U+0080-U+009F) gets
the hexadecimal form; everything else is unchanged. -/
def escapeCharSpec (c : Char) : String :=
  if c = '\\' then "\\\\"
  else if c = '\"' then "\\\""
  else if c = '\n' then "\\n"
  else if c = '\t' then "\\t"
  else if c = '\r' then "\\r"
  else if c.toNat < 0x20 ∨ c.toNat = 0x7F ∨ (0x80 ≤ c.toNat ∧ c.toNat ≤ 0x9F) then
    "\\u\x7b" ++ toHex2 c.toNat ++ "\x7d"
  else String.singleton c

/-- Token dictionaries yielded by the html5lib tokenizer, as the shapes
`format_token_for_moonbit` distinguishes by their `type` field.  Doctype
tokens carry the correctness/force-quirks information html5lib puts in the
dictionary; the formatter never reads it. -/
inductive Token where
  | startTag (name : String) (attrs : List (String × String)) (selfClosing : Bool)
  | endTag (name : String)
  | characters (data : String)
  | spaceCharacters (data : String)
  | comment (data : String)
  | doctype (name publicId systemId : Option String) (forceQuirks : Bool)
  | parseError (data : String)
  | other
deriving DecidableEq

/-- Python `str(b).lower()` for a boolean. -/
def pyBoolStr (b : Bool) : String := if b then "true" else "false"

/-- Python truthiness of an optional string: `None` and the empty string
are falsy. -/
def pyTruthy : Option String → Bool
  | none => false
  | some s => !(s == "")

/-- Rendering of an optional doctype field, mirroring the conditional
expressions of lines 137-139 of the source: `Some("...")` when the value is
truthy, `None` otherwise. -/
def optFieldStr (v : Option String) : String :=
  if pyTruthy v then "Some(\"" ++ escape_for_moonbit (v.getD "") ++ "\")" else "None"

/-- Embedding of `format_token_for_moonbit` (src/scripts/html_reference.py
lines 105-145).  Unhandled token types, and `ParseError` tokens, yield
`none` (the Python function returns `None` for them). -/
def format_token_for_moonbit : Token → Option String
  | .startTag name attrs selfClosing =>
    some ("StartTag(name=\"" ++ escape_for_moonbit name ++ "\", attrs=[" ++
      String.intercalate ", " (attrs.map (fun kv =>
        "\x7bname: \"" ++ escape_for_moonbit kv.1 ++ "\", value: \"" ++
          escape_for_moonbit kv.2 ++ "\"\x7d")) ++
      "], self_closing=" ++ pyBoolStr selfClosing ++ ")")
  | .endTag name => some ("EndTag(name=\"" ++ escape_for_moonbit name ++ "\")")
  | .characters data =>
    some (String.intercalate ", " (data.data.map (fun c =>
      "Character(\x27" ++ escape_for_moonbit (String.singleton c) ++ "\x27)")))
  | .spaceCharacters data =>
    some (String.intercalate ", " (data.data.map (fun c =>
      "Character(\x27" ++ escape_for_moonbit (String.singleton c) ++ "\x27)")))
  | .comment data => some ("Comment(\"" ++ escape_for_moonbit data ++ "\")")
  | .doctype name publicId systemId _ =>
    some ("DOCTYPE(name=" ++ optFieldStr name ++ ", public_id=" ++ optFieldStr publicId ++
      ", system_id=" ++ optFieldStr systemId ++ ", force_quirks=false)")
  | .parseError _ => none
  | .other => none

/-- Result payload of `tokenize_html`: on success the list of tokens, on a
caught exception the exception's message (the Python function returns
`str(e)` in place of the declared token list). -/
inductive TokOut where
  | tokens (ts : List Token)
  | message (msg : String)
deriving DecidableEq

/-- Embedding of `tokenize_html` (src/scripts/html_reference.py lines
41-56).  The iteration over the external html5lib tokenizer is modelled by
its outcome `run`: `Except.ok ts` when it yields the token list `ts`,
`Except.error e` when it raises an exception with message `e`.  The
wrapper's own result is again an `Except`, so that propagating an exception
is expressible; the source's `try/except` catches everything, hence the
result is always `Except.ok`. -/
def tokenize_html (run : Except String (List Token)) : Except String (Bool × TokOut) :=
  match run with
  | .ok ts => .ok (true, .tokens ts)
  | .error e => .ok (false, .message e)

/-- The subsequence of parse-error notices inside a token stream. -/
def parseErrorsOf (ts : List Token) : List String :=
  ts.filterMap (fun t =>
    match t with
    | .parseError e => some e
    | _ => none)

/-- Spec-side list of per-code-point entries for a character token's data:
one `Character(...)` entry per code point, in order. -/
def characterEntriesSpec (s : String) : List String :=
  s.data.map (fun c => "Character(\x27" ++ escape_for_moonbit (String.singleton c) ++ "\x27)")

/-- Spec-side rendering of a start tag line, as the specification words it:
the tag name, the attributes as an ordered list of name/value pairs with
name and value escaped, and the self-closing flag as true or false. -/
def startTagLineSpec (name : String) (attrs : List (String × String))
    (selfClosing : Bool) : String :=
  "StartTag(name=\"" ++ escape_for_moonbit name ++ "\", attrs=[" ++
    String.intercalate ", " (attrs.map (fun kv =>
      "\x7bname: \"" ++ escape_for_moonbit kv.1 ++ "\", value: \"" ++
        escape_for_moonbit kv.2 ++ "\"\x7d")) ++
    "], self_closing=" ++ (if selfClosing then "true" else "false") ++ ")"

/-- Spec-side doctype rendering as amended: each optional field renders
`Some(...)` exactly when present and non-empty (Python truthiness), and the
force-quirks field is the literal `false`, independent of the token. -/
def doctypeLineSpec (name publicId systemId : Option String) : String :=
  let field : Option String → String := fun v =>
    match v with
    | none => "None"
    | some s => if s = "" then "None" else "Some(\"" ++ escape_for_moonbit s ++ "\")"
  "DOCTYPE(name=" ++ field name ++ ", public_id=" ++ field publicId ++
    ", system_id=" ++ field systemId ++ ", force_quirks=false)"

/-- Strict lexicographic comparison of code-point lists — the order Python
uses to compare strings. -/
def charListLt : List Char → List Char → Bool
  | [], [] => false
  | [], _ :: _ => true
  | _ :: _, [] => false
  | a :: as, b :: bs =>
    if a < b then true
    else if b < a then false
    else charListLt as bs

/-- Python tuple comparison on (key, value) pairs of strings, the order
used by `sorted(elem.attrib.items())`: less-or-equal on pairs, with the
key compared first and the value breaking ties. -/
def pairLe (a b : String × String) : Prop :=
  a.1 < b.1 ∨ (a.1 = b.1 ∧ a.2 ≤ b.2)

/-- Kernel-computable boolean form of `pairLe` (the library's own `String`
comparison iterates over byte positions and does not reduce in the
kernel). -/
def pairLeB (a b : String × String) : Bool :=
  charListLt a.1.data b.1.data ||
    (a.1 == b.1 && !charListLt b.2.data a.2.data)

/-- Insertion step of the sort modelling Python `sorted`. -/
def orderedInsertB (x : String × String) :
    List (String × String) → List (String × String)
  | [] => [x]
  | y :: ys => if pairLeB x y then x :: y :: ys else y :: orderedInsertB x ys

/-- Python `sorted` on the attribute items: sorts by tuple order (key
first, then value), modelled by insertion sort, which computes a sorted
permutation just as Python's `sorted` does. -/
def pySorted (l : List (String × String)) : List (String × String) :=
  l.foldr orderedInsertB []

/-- Element of the etree tree handed to `element_to_str`: tag, attribute
items (in the dict's insertion order), optional text before the first
child, optional tail text after the element's closing tag (consumed by the
parent's loop), and the child elements. -/
inductive Element where
  | mk (tag : String) (attrib : List (String × String)) (text : Option String)
      (tail : Option String) (children : List Element)

def Element.tag : Element → String
  | .mk t _ _ _ _ => t

def Element.attrib : Element → List (String × String)
  | .mk _ a _ _ _ => a

def Element.text : Element → Option String
  | .mk _ _ x _ _ => x

def Element.tailText : Element → Option String
  | .mk _ _ _ x _ => x

def Element.children : Element → List Element
  | .mk _ _ _ _ c => c

/-- Python string repetition `s * n`. -/
def pyRepeat (s : String) : Nat → String
  | 0 => ""
  | n + 1 => s ++ pyRepeat s n

/-- Splitting a character list at a separator character, as Python
`str.split` with a one-character separator does: `n` separators yield
`n + 1` (possibly empty) segments. -/
def splitChar (sep : Char) : List Char → List (List Char)
  | [] => [[]]
  | c :: cs =>
    let rest := splitChar sep cs
    if c = sep then [] :: rest
    else
      match rest with
      | r :: rs => (c :: r) :: rs
      | [] => [[c]]

/-- Namespace handling of `element_to_str` lines 76-77: when the tag
contains a closing brace, the segment after the first one is kept
(`tag.split(sep)[1]`), otherwise the tag is unchanged. -/
def stripNamespace (tag : String) : String :=
  match splitChar '\x7d' tag.data with
  | _ :: second :: _ => String.mk second
  | _ => tag

/-- A quoted payload line guarded by Python truthiness: `None` and the
empty string produce no line, any other text is interpolated raw between
double quotes. -/
def textLine (pre : String) : Option String → List String
  | none => []
  | some t => if t = "" then [] else [pre ++ "  \"" ++ t ++ "\""]

mutual

/-- Embedding of `element_to_str` (src/scripts/html_reference.py lines
70-97): the opening tag line, then one line per attribute from the sorted
attribute items, then the truthy text payload, then the children's lines
with each child's tail rendered at this element's level.  All payloads are
interpolated raw, exactly as the f-strings of the source do. -/
def element_to_str (e : Element) (indent : Nat) : List String :=
  match e with
  | .mk tag attrib text _ children =>
    let pre := pyRepeat "| " indent
    (pre ++ "<" ++ stripNamespace tag ++ ">") ::
      ((if attrib.isEmpty then [] else
          (pySorted attrib).map (fun kv => pre ++ "  " ++ kv.1 ++ "=\"" ++ kv.2 ++ "\"")) ++
        textLine pre text ++ childrenLines children (indent + 1) pre)

/-- The `for child in elem` loop of `element_to_str`: each child's lines at
the next indent, followed by the child's truthy tail text at the parent's
level. -/
def childrenLines : List Element → Nat → String → List String
  | [], _, _ => []
  | c :: cs, ind, pre =>
    element_to_str c ind ++ textLine pre c.tailText ++ childrenLines cs ind pre

end

/-- Embedding of `parse_html_to_tree` (src/scripts/html_reference.py lines
59-102).  The external html5lib parser call is modelled by its outcome
`run`: `Except.ok doc` when it returns the document element, `Except.error
e` when it raises an exception with message `e`; the tree walk and the
newline join happen inside the try, and the except arm returns the
message. -/
def parse_html_to_tree (run : Except String Element) : Except String (Bool × String) :=
  match run with
  | .ok doc => .ok (true, String.intercalate "\n" (element_to_str doc 0))
  | .error e => .ok (false, e)

/-! ### Theorems -/

example : escape_for_moonbit "a\"b" = "a\\\"b" := by decide

example : escape_for_moonbit "x\u0001" = "x\\u\x7b01\x7d" := by decide

lemma escapeChar_eq_spec (c : Char) : escapeChar c = escapeCharSpec c := by
  unfold escapeChar escapeCharSpec
  split_ifs <;>
    first
      | rfl
      | omega
      | (rw [show c.toNat = 127 from by omega]; decide)

/-- C1: for every input string, `escape_for_moonbit` rewrites each character
as the specification states: backslash, double quote, newline, tab and
carriage return become their conventional short escapes, every other
non-printable control code point (below U+0020, U+007F, U+0080-U+009F)
becomes the hexadecimal form, and all other characters are unchanged. -/
theorem escape_for_moonbit_matches_spec (s : String) :
    escape_for_moonbit s = String.join (s.data.map escapeCharSpec) := by
  unfold escape_for_moonbit
  rw [show escapeChar = escapeCharSpec from funext escapeChar_eq_spec]

lemma data_foldl_append (L : List String) (a : String) :
    (L.foldl (· ++ ·) a).data = a.data ++ (L.map String.data).flatten := by
  induction L generalizing a with
  | nil => simp
  | cons x xs ih => simp [ih, String.data_append]

lemma data_join (L : List String) : (String.join L).data = (L.map String.data).flatten := by
  unfold String.join
  simpa using data_foldl_append L ""

lemma hexDigit_ok (n : Nat) : 0x30 ≤ (hexDigit n).toNat ∧ (hexDigit n).toNat ≤ 0x66 := by
  unfold hexDigit
  split <;> decide

lemma hexChunk_chars_ok (n : Nat) (c : Char)
    (h : c ∈ ("\\u\x7b" ++ toHex2 n ++ "\x7d").data) :
    0x20 ≤ c.toNat ∧ c.toNat ≠ 0x7F ∧ ¬ (0x80 ≤ c.toNat ∧ c.toNat ≤ 0x9F) := by
  rw [String.data_append, String.data_append,
    show (toHex2 n).data = [hexDigit (n / 16), hexDigit (n % 16)] from rfl,
    show ("\\u\x7b" : String).data = ['\\', 'u', '\x7b'] from rfl,
    show ("\x7d" : String).data = ['\x7d'] from rfl] at h
  simp only [List.mem_append, List.mem_cons, List.not_mem_nil, or_false] at h
  rcases h with ((rfl | rfl | rfl) | (rfl | rfl)) | rfl
  · decide
  · decide
  · decide
  · rcases hexDigit_ok (n / 16) with ⟨hl, hr⟩; omega
  · rcases hexDigit_ok (n % 16) with ⟨hl, hr⟩; omega
  · decide

lemma escapeChar_chars_ok (x c : Char) (h : c ∈ (escapeChar x).data) :
    0x20 ≤ c.toNat ∧ c.toNat ≠ 0x7F ∧ ¬ (0x80 ≤ c.toNat ∧ c.toNat ≤ 0x9F) := by
  unfold escapeChar at h
  split_ifs at h with h1 h2 h3 h4 h5 h6 h7 h8
  · rw [show ("\\\\" : String).data = ['\\', '\\'] from rfl] at h
    simp only [List.mem_cons, List.not_mem_nil, or_false] at h
    rcases h with rfl | rfl <;> decide
  · rw [show ("\\\"" : String).data = ['\\', '\"'] from rfl] at h
    simp only [List.mem_cons, List.not_mem_nil, or_false] at h
    rcases h with rfl | rfl <;> decide
  · rw [show ("\\n" : String).data = ['\\', 'n'] from rfl] at h
    simp only [List.mem_cons, List.not_mem_nil, or_false] at h
    rcases h with rfl | rfl <;> decide
  · rw [show ("\\t" : String).data = ['\\', 't'] from rfl] at h
    simp only [List.mem_cons, List.not_mem_nil, or_false] at h
    rcases h with rfl | rfl <;> decide
  · rw [show ("\\r" : String).data = ['\\', 'r'] from rfl] at h
    simp only [List.mem_cons, List.not_mem_nil, or_false] at h
    rcases h with rfl | rfl <;> decide
  · exact hexChunk_chars_ok x.toNat c h
  · rw [show ("\\u\x7b7f\x7d" : String).data = ['\\', 'u', '\x7b', '7', 'f', '\x7d'] from
      rfl] at h
    simp only [List.mem_cons, List.not_mem_nil, or_false] at h
    rcases h with rfl | rfl | rfl | rfl | rfl | rfl <;> decide
  · exact hexChunk_chars_ok x.toNat c h
  · rw [show (String.singleton x).data = [x] from rfl] at h
    simp only [List.mem_cons, List.not_mem_nil, or_false] at h
    subst h
    omega

/-- C9: the output of `escape_for_moonbit` contains no raw control
character: every character of the result has code point at least U+0020,
is not U+007F, and is not in U+0080-U+009F. -/
theorem escape_output_has_no_raw_control (s : String) (c : Char)
    (h : c ∈ (escape_for_moonbit s).data) :
    0x20 ≤ c.toNat ∧ c.toNat ≠ 0x7F ∧ ¬ (0x80 ≤ c.toNat ∧ c.toNat ≤ 0x9F) := by
  unfold escape_for_moonbit at h
  rw [data_join, List.map_map] at h
  rw [List.mem_flatten] at h
  obtain ⟨l, hl, hcl⟩ := h
  obtain ⟨x, _, rfl⟩ := List.mem_map.mp hl
  exact escapeChar_chars_ok x c hcl

/-- Witness for C9 at a concrete input. -/
theorem escape_output_has_no_raw_control_witness :
    '\\' ∈ (escape_for_moonbit "a\nb").data ∧
      (0x20 ≤ '\\'.toNat ∧ '\\'.toNat ≠ 0x7F ∧
        ¬ (0x80 ≤ '\\'.toNat ∧ '\\'.toNat ≤ 0x9F)) :=
  ⟨by decide, escape_output_has_no_raw_control "a\nb" '\\' (by decide)⟩

/-- C10: on a caught exception `tokenize_html` returns `False` paired with
the exception's message (not a token list), on success it returns `True`
paired with the full token list, and in neither case does the exception
propagate. -/
theorem tokenize_html_failure_and_success :
    (∀ e, tokenize_html (.error e) = .ok (false, .message e)) ∧
      (∀ ts, tokenize_html (.ok ts) = .ok (true, .tokens ts)) :=
  ⟨fun _ => rfl, fun _ => rfl⟩

/-- C4: on success `tokenize_html` hands the caller the full token stream,
so the parse-error notices of the stream are all present in the returned
result — none is discarded. -/
theorem tokenize_returns_tokens_and_errors (ts : List Token) :
    ∃ out, tokenize_html (.ok ts) = .ok (true, .tokens out) ∧
      parseErrorsOf out = parseErrorsOf ts ∧ out = ts :=
  ⟨ts, rfl, rfl, rfl⟩

/-- C7: a `Characters` or `SpaceCharacters` token with data of `n` code
points is rendered as exactly `n` `Character` entries, one per code point
of the data, in order. -/
theorem character_tokens_one_per_code_point (s : String) :
    format_token_for_moonbit (.characters s) =
        some (String.intercalate ", " (characterEntriesSpec s)) ∧
      format_token_for_moonbit (.spaceCharacters s) =
        some (String.intercalate ", " (characterEntriesSpec s)) ∧
      (characterEntriesSpec s).length = s.data.length := by
  refine ⟨rfl, rfl, ?_⟩
  simp [characterEntriesSpec]

/-- C8: a `StartTag` token is dumped with its escaped tag name, its
attributes as an ordered list of escaped name/value pairs, and its
self-closing flag. -/
theorem start_tag_dump_shows_fields (name : String) (attrs : List (String × String))
    (selfClosing : Bool) :
    format_token_for_moonbit (.startTag name attrs selfClosing) =
      some (startTagLineSpec name attrs selfClosing) := by
  cases selfClosing <;> rfl

/-- C6 counterexample: a doctype token whose name field is present (the
empty string) and whose force-quirks flag is true is rendered with
`name=None` and `force_quirks=false`. -/
theorem doctype_dump_counterexample :
    format_token_for_moonbit (.doctype (some "") none none true) =
      some "DOCTYPE(name=None, public_id=None, system_id=None, force_quirks=false)" := by
  decide

lemma optFieldStr_eq (v : Option String) :
    optFieldStr v = (match v with
      | none => "None"
      | some s => if s = "" then "None" else "Some(\"" ++ escape_for_moonbit s ++ "\")") := by
  match v with
  | none => rfl
  | some s =>
    by_cases h : s = ""
    · subst h; rfl
    · simp [optFieldStr, pyTruthy, h]

/-- C6 amended: every doctype token is rendered with its name, public-id
and system-id shown as `Some(...)` exactly when the field is present and
non-empty (Python truthiness treats an empty string like an absent field),
and with the force-quirks flag always rendered `false`, regardless of the
token's actual force-quirks value. -/
theorem doctype_dump_amended (name publicId systemId : Option String)
    (forceQuirks : Bool) :
    format_token_for_moonbit (.doctype name publicId systemId forceQuirks) =
      some (doctypeLineSpec name publicId systemId) := by
  simp only [format_token_for_moonbit, doctypeLineSpec, optFieldStr_eq]

lemma charListLt_iff : ∀ (as bs : List Char), charListLt as bs = true ↔ as < bs := by
  intro as
  induction as with
  | nil =>
    intro bs
    cases bs with
    | nil =>
      constructor
      · intro h; simp [charListLt] at h
      · intro h; cases h
    | cons b bs =>
      constructor
      · intro _; exact List.Lex.nil
      · intro _; rfl
  | cons a as ih =>
    intro bs
    cases bs with
    | nil =>
      constructor
      · intro h; simp [charListLt] at h
      · intro h; cases h
    | cons b bs =>
      by_cases hab : a < b
      · constructor
        · intro _; exact List.Lex.rel hab
        · intro _; simp [charListLt, if_pos hab]
      · by_cases hba : b < a
        · constructor
          · intro h; simp [charListLt, if_neg hab, if_pos hba] at h
          · intro h
            exfalso
            cases h with
            | cons h2 => exact lt_irrefl _ hba
            | rel h2 => exact hab h2
        · have heq : a = b := le_antisymm (not_lt.mp hba) (not_lt.mp hab)
          subst heq
          rw [show charListLt (a :: as) (a :: bs) = charListLt as bs by
            simp [charListLt]]
          constructor
          · intro h; exact List.Lex.cons ((ih bs).mp h)
          · intro h
            cases h with
            | cons h2 => exact (ih bs).mpr h2
            | rel h2 => exact absurd h2 (lt_irrefl a)

lemma charListLt_iff_strLt (a b : String) : charListLt a.data b.data = true ↔ a < b := by
  rw [String.lt_iff_toList_lt]
  exact charListLt_iff a.data b.data

lemma pairLeB_iff (a b : String × String) : pairLeB a b = true ↔ pairLe a b := by
  unfold pairLeB pairLe
  rw [Bool.or_eq_true, Bool.and_eq_true, Bool.not_eq_true']
  rw [charListLt_iff_strLt, beq_iff_eq]
  have hval : charListLt b.2.data a.2.data = false ↔ a.2 ≤ b.2 := by
    rw [← Bool.not_eq_true, charListLt_iff_strLt, not_lt]
  rw [hval]

lemma pairLe_total (a b : String × String) : pairLe a b ∨ pairLe b a := by
  rcases lt_trichotomy a.1 b.1 with h | h | h
  · exact Or.inl (Or.inl h)
  · rcases le_total a.2 b.2 with h2 | h2
    · exact Or.inl (Or.inr ⟨h, h2⟩)
    · exact Or.inr (Or.inr ⟨h.symm, h2⟩)
  · exact Or.inr (Or.inl h)

lemma pairLe_trans {a b c : String × String} (hab : pairLe a b) (hbc : pairLe b c) :
    pairLe a c := by
  rcases hab with h1 | ⟨e1, l1⟩
  · rcases hbc with h2 | ⟨e2, l2⟩
    · exact Or.inl (h1.trans h2)
    · exact Or.inl (by rw [← e2]; exact h1)
  · rcases hbc with h2 | ⟨e2, l2⟩
    · exact Or.inl (by rw [e1]; exact h2)
    · exact Or.inr ⟨e1.trans e2, l1.trans l2⟩

lemma mem_orderedInsertB (x : String × String) :
    ∀ (l : List (String × String)) (y : String × String),
      y ∈ orderedInsertB x l → y = x ∨ y ∈ l := by
  intro l
  induction l with
  | nil =>
    intro y h
    simp only [orderedInsertB] at h
    exact Or.inl (List.mem_singleton.mp h)
  | cons z zs ih =>
    intro y h
    simp only [orderedInsertB] at h
    split_ifs at h with hc
    · exact (List.mem_cons.mp h).elim Or.inl Or.inr
    · rcases List.mem_cons.mp h with h2 | h2
      · exact Or.inr (h2 ▸ List.mem_cons_self z zs)
      · rcases ih y h2 with h3 | h3
        · exact Or.inl h3
        · exact Or.inr (List.mem_cons_of_mem z h3)

lemma sorted_orderedInsertB (x : String × String) (l : List (String × String))
    (hl : List.Pairwise pairLe l) : List.Pairwise pairLe (orderedInsertB x l) := by
  induction l with
  | nil => simp [orderedInsertB]
  | cons z zs ih =>
    simp only [orderedInsertB]
    rcases List.pairwise_cons.mp hl with ⟨hz, hzs⟩
    split_ifs with hc
    · refine List.pairwise_cons.mpr ⟨?_, hl⟩
      intro y hy
      have hxz : pairLe x z := (pairLeB_iff x z).mp hc
      rcases List.mem_cons.mp hy with rfl | hy2
      · exact hxz
      · exact pairLe_trans hxz (hz y hy2)
    · refine List.pairwise_cons.mpr ⟨?_, ih hzs⟩
      intro y hy
      have hzx : pairLe z x := by
        rcases pairLe_total x z with h | h
        · exact absurd ((pairLeB_iff x z).mpr h) hc
        · exact h
      rcases mem_orderedInsertB x (zs) y hy with rfl | hy2
      · exact hzx
      · exact hz y hy2

lemma sorted_pySorted (l : List (String × String)) :
    List.Pairwise pairLe (pySorted l) := by
  induction l with
  | nil => simp [pySorted]
  | cons x xs ih => exact sorted_orderedInsertB x (pySorted xs) ih

lemma keys_sorted_of_pairLe_sorted {l : List (String × String)}
    (h : List.Pairwise pairLe l) : List.Sorted (· ≤ ·) (l.map Prod.fst) := by
  have hp : List.Pairwise (fun a b : String × String => a.1 ≤ b.1) l := by
    refine h.imp ?_
    intro a b hab
    rcases hab with h1 | ⟨h1, _⟩
    · exact le_of_lt h1
    · exact le_of_eq h1
  exact (List.pairwise_map).mpr hp

/-- C2: for every outcome of the underlying html5lib calls — including any
raised exception — `tokenize_html` and `parse_html_to_tree` return a result
to the caller; a raised exception is converted into a returned failure
result and never propagates. -/
theorem tokenize_and_parse_always_return :
    (∀ run, ∃ r, tokenize_html run = .ok r) ∧
      (∀ run, ∃ r, parse_html_to_tree run = .ok r) := by
  constructor
  · intro run
    cases run <;> exact ⟨_, rfl⟩
  · intro run
    cases run <;> exact ⟨_, rfl⟩

/-- C5: in the tree dump the attribute lines of an element immediately
follow its tag line, one line per attribute showing its name and value,
rendered from the attribute items sorted by Python tuple order — so the
attribute names appear in ascending (non-decreasing) order. -/
theorem attributes_sorted_in_tree_dump (tag : String)
    (attrib : List (String × String)) (text tl : Option String)
    (children : List Element) (i : Nat) :
    ∃ rest,
      element_to_str (.mk tag attrib text tl children) i =
        (pyRepeat "| " i ++ "<" ++ stripNamespace tag ++ ">") ::
          ((pySorted attrib).map (fun kv =>
            pyRepeat "| " i ++ "  " ++ kv.1 ++ "=\"" ++ kv.2 ++ "\"") ++ rest) ∧
      List.Sorted (· ≤ ·) ((pySorted attrib).map Prod.fst) := by
  refine ⟨textLine (pyRepeat "| " i) text ++
    childrenLines children (i + 1) (pyRepeat "| " i), ?_, ?_⟩
  · rw [element_to_str]
    rcases attrib with _ | ⟨a, as⟩
    · simp [pySorted]
    · simp
  · exact keys_sorted_of_pairLe_sorted (sorted_pySorted attrib)

/-- C3 counterexample: the text payload of an element is dumped raw — a
double quote inside the text appears unescaped in the tree dump line, which
therefore differs from what rendering through `escape_for_moonbit` would
produce. -/
theorem tree_dump_text_not_escaped :
    element_to_str (.mk "p" [] (some "a\"b") none []) 0 = ["<p>", "  \"a\"b\""] ∧
      "  \"a\"b\"" ≠ "  \"" ++ escape_for_moonbit "a\"b" ++ "\"" := by
  constructor
  · decide
  · decide

/-- C3 amended: a truthy text payload appears in the tree dump as the raw
original text wrapped in double quotes at the element's indent, with no
escaping applied — `escape_for_moonbit` is not used in the tree dump, and
attribute names and values are likewise interpolated raw. -/
theorem tree_dump_text_raw (tag : String) (attrib : List (String × String))
    (t : String) (tl : Option String) (children : List Element) (i : Nat)
    (h : t ≠ "") :
    ∃ rest,
      element_to_str (.mk tag attrib (some t) tl children) i =
        (pyRepeat "| " i ++ "<" ++ stripNamespace tag ++ ">") ::
          ((if attrib.isEmpty then [] else
              (pySorted attrib).map (fun kv =>
                pyRepeat "| " i ++ "  " ++ kv.1 ++ "=\"" ++ kv.2 ++ "\"")) ++
            (pyRepeat "| " i ++ "  \"" ++ t ++ "\"") :: rest) := by
  refine ⟨childrenLines children (i + 1) (pyRepeat "| " i), ?_⟩
  rw [element_to_str]
  simp [textLine, if_neg h]

/-- Witness for the amended C3 at a concrete element whose text holds a
control character. -/
theorem tree_dump_text_raw_witness :
    ("x\ny" : String) ≠ "" ∧
      ∃ rest,
        element_to_str (.mk "p" [] (some "x\ny") none []) 0 =
          (pyRepeat "| " 0 ++ "<" ++ stripNamespace "p" ++ ">") ::
            ((if ([] : List (String × String)).isEmpty then [] else
                (pySorted []).map (fun kv =>
                  pyRepeat "| " 0 ++ "  " ++ kv.1 ++ "=\"" ++ kv.2 ++ "\"")) ++
              (pyRepeat "| " 0 ++ "  \"" ++ "x\ny" ++ "\"") :: rest) :=
  ⟨by decide, tree_dump_text_raw "p" [] "x\ny" none [] 0 (by decide)⟩

end HtmlRef
